import Mathlib

/-!
Verification of the search-and-relevance pipeline of the cookbook-connect
backend.  The TypeScript services (`SearchService`, `FallbackSearchService`,
`ElasticsearchSyncService`, `RecipesService`, `SearchResolver`) are embedded
as executable Lean definitions; external collaborators (the search engine,
the relational store) are modelled as explicit parameters: the store is a
list of recipe rows, the engine is a function from the request body sent by
the service to an engine response.
-/

/-! ## JavaScript-semantics helpers -/

/-- Truthiness of an optional string (`if (x)` in JS: `undefined` and `""` are falsy). -/
def strTruthy : Option String → Bool
  | some s => !(s == "")
  | none => false

/-- Truthiness of an optional number (`if (x)`: `undefined` and `0` are falsy). -/
def natTruthy : Option Nat → Bool
  | some n => !(n == 0)
  | none => false

/-- The JS expression `x || d` for an optional number `x`. -/
def jsOrNat (x : Option Nat) (d : Nat) : Nat :=
  match x with
  | some n => if n == 0 then d else n
  | none => d

/-- The JS expression `x || undefined` for an optional string (empty string becomes undefined). -/
def jsOrUndefStr : Option String → Option String
  | some s => if s == "" then none else some s
  | none => none

/-- The JS expression `x || undefined` for an optional number (zero becomes undefined). -/
def jsOrUndefNat : Option Nat → Option Nat
  | some n => if n == 0 then none else some n
  | none => none

/-- The JS expression `x || undefined` for an optional rational (zero becomes undefined). -/
def jsOrUndefQ : Option ℚ → Option ℚ
  | some q => if q == 0 then none else some q
  | none => none

/-- Substring containment on character lists: does the haystack contain `sub`
as a contiguous run?  (Executable model of `String.prototype.includes`.) -/
def charsContains (sub : List Char) : List Char → Bool
  | [] => sub.isEmpty
  | c :: rest => sub.isPrefixOf (c :: rest) || charsContains sub rest

/-- JS `s.includes(sub)`. -/
def strIncludes (s sub : String) : Bool :=
  charsContains sub.data s.data

/-- JS `s.toLowerCase()` (character-wise lowering). -/
def lowerStr (s : String) : String :=
  String.mk (s.data.map Char.toLower)

/-! ## Data model (rows of the system of record) -/

/-- An ingredient row attached to a recipe. -/
structure IngredientRow where
  name : String
  quantity : Nat
  unit : String
deriving DecidableEq, Repr

/-- An instruction row attached to a recipe. -/
structure InstructionRow where
  stepNumber : Nat
  description : String
deriving DecidableEq, Repr

/-- An authoritative recipe row, together with the relations the services
`include` on every fetch (author, ingredients, instructions, rating values,
comment count).  Timestamps are abstract ticks. -/
structure Recipe where
  id : String
  title : String
  description : Option String
  cuisine : Option String
  difficulty : Option String
  cookingTime : Option Nat
  servings : Option Nat
  imageUrl : Option String
  isPublic : Bool
  authorId : String
  authorUsername : String
  ingredients : List IngredientRow
  instructions : List InstructionRow
  ratings : List Nat
  commentsCount : Nat
  createdAt : Nat
  updatedAt : Nat
deriving DecidableEq, Repr

/-- The transformed recipe returned by both search services (spread of the row
plus `avgRating`, `ratingsCount`, `commentsCount`, with JS `|| undefined`
normalisation of optional fields). -/
structure RecipeResult where
  id : String
  title : String
  description : Option String
  cuisine : Option String
  difficulty : Option String
  cookingTime : Option Nat
  servings : Option Nat
  imageUrl : Option String
  isPublic : Bool
  authorId : String
  avgRating : Option ℚ
  ratingsCount : Nat
  commentsCount : Nat
  createdAt : Nat
deriving DecidableEq, Repr

/-- SearchResult as returned to the caller (`took` is wall-clock time and is
not modelled). -/
structure SearchResult where
  recipes : List RecipeResult
  total : Nat
  maxScore : Option ℚ
deriving DecidableEq, Repr

/-- The transformation applied to each fetched row before it is returned
(the `.map(recipe => ...)` bodies of both services). -/
def transformRecipe (recipe : Recipe) : RecipeResult :=
  let avgRating : Option ℚ :=
    if recipe.ratings.length > 0 then
      some ((recipe.ratings.map fun v => (v : ℚ)).sum / (recipe.ratings.length : ℚ))
    else none
  { id := recipe.id
    title := recipe.title
    description := jsOrUndefStr recipe.description
    cuisine := jsOrUndefStr recipe.cuisine
    difficulty := jsOrUndefStr recipe.difficulty
    cookingTime := jsOrUndefNat recipe.cookingTime
    servings := jsOrUndefNat recipe.servings
    imageUrl := jsOrUndefStr recipe.imageUrl
    isPublic := recipe.isPublic
    authorId := recipe.authorId
    avgRating := avgRating
    ratingsCount := recipe.ratings.length
    commentsCount := recipe.commentsCount
    createdAt := recipe.createdAt }

/-! ## Engine query representation

Each constructor mirrors one of the query-object literals built by
`SearchService`; the parameters are the literal's payload in source order. -/

/-- An inner `match` clause (`{ match: { <field>: { query, boost } } }`). -/
structure InnerMatch where
  field : String
  query : String
  boost : Nat
deriving DecidableEq, Repr

/-- One boolean-query clause as built by `SearchService`. -/
inductive Clause where
  /-- `{ term: { <field>: <bool> } }` -/
  | term (field : String) (value : Bool)
  /-- `{ term: { <field>: <string> } }` -/
  | termStr (field : String) (value : String)
  /-- `{ multi_match: { query, fields, type, fuzziness } }` -/
  | multiMatch (query : String) (fields : List String) (matchType : String) (fuzziness : String)
  /-- `{ match_phrase: { <field>: { query, boost } } }` -/
  | matchPhrase (field : String) (query : String) (boost : Nat)
  /-- `{ nested: { path, query: { match: { <field>: { query, fuzziness } } } } }` -/
  | nestedMatch (path : String) (field : String) (query : String) (fuzziness : String)
  /-- `{ nested: { path, query: { bool: { should: [...] } }, score_mode } }` -/
  | nestedShould (path : String) (should : List InnerMatch) (scoreMode : String)
  /-- `{ terms: { <field>: [...] } }` -/
  | terms (field : String) (values : List String)
  /-- `{ range: { <field>: { gte?, lte? } } }` -/
  | range (field : String) (gte : Option Nat) (lte : Option Nat)
deriving DecidableEq, Repr

/-- One sort key (`{ <field>: { order, missing? } }`). -/
structure SortKey where
  field : String
  order : String
  missing : Option String
deriving DecidableEq, Repr

/-- The `bool` query object; `none` on `should`/`filter`/`minimum_should_match`
models a field set to `undefined` (dropped on the wire). -/
structure BoolQuery where
  must : List Clause
  should : Option (List Clause)
  filter : Option (List Clause)
  minimum_should_match : Option Nat
deriving DecidableEq, Repr

/-- What `buildSearchQuery` returns: `{ query, sort }`. -/
structure BuiltQuery where
  query : BoolQuery
  sort : List SortKey
deriving DecidableEq, Repr

/-- The full body handed to `elasticsearchService.search` (`from`/`size`
pagination and the `_source` projection included). -/
structure SearchRequestBody where
  query : BoolQuery
  sort : List SortKey
  from' : Nat
  size : Nat
  source : List String
deriving DecidableEq, Repr

/-! ## Search input DTO -/

/-- `SearchQueryInput` (all fields optional / nullable). -/
structure SearchQueryInput where
  query : Option String := none
  ingredients : Option (List String) := none
  cuisines : Option (List String) := none
  difficulties : Option (List String) := none
  maxCookingTime : Option Nat := none
  minServings : Option Nat := none
  maxServings : Option Nat := none
  authorId : Option String := none
  skip : Option Nat := none
  take : Option Nat := none
deriving DecidableEq, Repr

/-- Class-validator constraints on the DTO: `skip ≥ 0` is implicit for `Nat`,
`take` has `@Min(1) @Max(100)`. -/
def SearchQueryInput.valid (sq : SearchQueryInput) : Prop :=
  ∀ t ∈ sq.take, 1 ≤ t ∧ t ≤ 100

/-! ## SearchService.buildSearchQuery -/

/-- The two text-search clauses pushed into `shouldClauses` when
`searchQuery.query` is truthy. -/
def textShouldClauses (searchQuery : SearchQueryInput) : List Clause :=
  if strTruthy searchQuery.query then
    [ Clause.multiMatch (searchQuery.query.getD "")
        ["title^3", "title.autocomplete^2", "description^1",
         "ingredients.name^2", "instructions.description^1"]
        "best_fields" "AUTO",
      Clause.matchPhrase "title" (searchQuery.query.getD "") 5 ]
  else []

/-- The nested ingredient clauses pushed into `mustClauses` (one per requested
ingredient, fuzziness AUTO) when the ingredient list is present and non-empty. -/
def ingredientMustClauses (searchQuery : SearchQueryInput) : List Clause :=
  match searchQuery.ingredients with
  | some ings =>
      if ings.length > 0 then
        ings.map fun ingredient =>
          Clause.nestedMatch "ingredients" "ingredients.name" ingredient "AUTO"
      else []
  | none => []

/-- The hard filter clauses, in the push order of the source (cuisine,
difficulty, cookingTime, servings, author). -/
def searchFilterClauses (searchQuery : SearchQueryInput) : List Clause :=
  (match searchQuery.cuisines with
   | some cs => if cs.length > 0 then [Clause.terms "cuisine" cs] else []
   | none => []) ++
  (match searchQuery.difficulties with
   | some ds => if ds.length > 0 then [Clause.terms "difficulty" ds] else []
   | none => []) ++
  (if natTruthy searchQuery.maxCookingTime then
     [Clause.range "cookingTime" none searchQuery.maxCookingTime]
   else []) ++
  (if natTruthy searchQuery.minServings || natTruthy searchQuery.maxServings then
     [Clause.range "servings"
        (if natTruthy searchQuery.minServings then searchQuery.minServings else none)
        (if natTruthy searchQuery.maxServings then searchQuery.maxServings else none)]
   else []) ++
  (if strTruthy searchQuery.authorId then
     [Clause.termStr "authorId" (searchQuery.authorId.getD "")]
   else [])

/-- `SearchService.buildSearchQuery`: must starts with the unconditional
`{ term: { isPublic: true } }` clause, then the ingredient clauses;
`should`/`filter`/`minimum_should_match` are set to `undefined` when their
lists are empty. -/
def buildSearchQuery (searchQuery : SearchQueryInput) : BuiltQuery :=
  let mustClauses : List Clause :=
    Clause.term "isPublic" true :: ingredientMustClauses searchQuery
  let shouldClauses := textShouldClauses searchQuery
  let filterClauses := searchFilterClauses searchQuery
  { query :=
      { must := mustClauses
        should := if shouldClauses.length > 0 then some shouldClauses else none
        filter := if filterClauses.length > 0 then some filterClauses else none
        minimum_should_match := if shouldClauses.length > 0 then some 1 else none }
    sort :=
      [ { field := "_score", order := "desc", missing := none },
        { field := "avgRating", order := "desc", missing := some "_last" },
        { field := "ratingsCount", order := "desc", missing := none },
        { field := "createdAt", order := "desc", missing := none } ] }

/-- The body `SearchService.searchRecipes` passes to
`elasticsearchService.search('recipes', ...)`. -/
def searchRequestBody (searchQuery : SearchQueryInput) : SearchRequestBody :=
  { query := (buildSearchQuery searchQuery).query
    sort := (buildSearchQuery searchQuery).sort
    from' := jsOrNat searchQuery.skip 0
    size := jsOrNat searchQuery.take 20
    source := ["id"] }

/-- The body built inline by `SearchService.cookWithWhatIHave`. -/
def cookQuery (ingredients : List String) (limit : Nat) : SearchRequestBody :=
  { query :=
      { must := [Clause.term "isPublic" true]
        should := some (ingredients.map fun ingredient =>
          Clause.nestedShould "ingredients"
            [ { field := "ingredients.name", query := ingredient, boost := 2 },
              { field := "ingredients.name.keyword", query := ingredient, boost := 3 } ]
            "sum")
        filter := none
        minimum_should_match := some 1 }
    sort :=
      [ { field := "_score", order := "desc", missing := none },
        { field := "avgRating", order := "desc", missing := some "_last" },
        { field := "ratingsCount", order := "desc", missing := none },
        { field := "createdAt", order := "desc", missing := none } ]
    from' := 0
    size := limit
    source := ["id"] }

/-! ## Engine responses and reconciliation -/

/-- The `hits.total` field of an engine response (`number`, object with
`value`, or absent). -/
inductive EsTotal where
  | num (n : Nat)
  | obj (value : Nat)
  | missing
deriving DecidableEq, Repr

/-- The TS expression
`typeof total === 'number' ? total : (total as { value }) ?.value || 0`. -/
def esTotalValue : EsTotal → Nat
  | .num n => n
  | .obj v => v
  | .missing => 0

/-- An engine response, reduced to what the service reads from it: the ranked
hit ids (`_source: ['id']`), the reported total, and the max score. -/
structure EngineResponse where
  hitIds : List String
  total : EsTotal
  maxScore : Option ℚ
deriving DecidableEq, Repr

/-- Lookup in the JS `Map` built from `recipes.map(r => [r.id, r])`: the last
entry for a key wins. -/
def recipeMapGet (recipes : List Recipe) (id : String) : Option Recipe :=
  (recipes.filter fun recipe => recipe.id == id).getLast?

/-- `SearchService.fetchRecipesFromDatabase`: fetch the rows whose id is in
the ranked list and which are still public, re-order them to the ranked-id
order via the map, drop unresolved ids, and transform each row. -/
def fetchRecipesFromDatabase (db : List Recipe) (recipeIds : List String) : List RecipeResult :=
  if recipeIds.length == 0 then []
  else
    let recipes := db.filter fun r => recipeIds.contains r.id && r.isPublic
    (recipeIds.filterMap fun id => recipeMapGet recipes id).map transformRecipe

/-- `SearchService.searchRecipes`: build the query, call the engine, fetch
and re-order the authoritative rows, and return the engine total and max
score; an engine error is logged and rethrown. -/
def SearchService.searchRecipes (engine : SearchRequestBody → Except String EngineResponse)
    (db : List Recipe) (searchQuery : SearchQueryInput) : Except String SearchResult :=
  match engine (searchRequestBody searchQuery) with
  | .error e => .error e
  | .ok response =>
      let recipeIds := response.hitIds
      let recipes := fetchRecipesFromDatabase db recipeIds
      .ok { recipes := recipes
            total := esTotalValue response.total
            maxScore := jsOrUndefQ response.maxScore }

/-- `SearchService.cookWithWhatIHave`: same reconciliation over the
cook-with-what-I-have query shape. -/
def SearchService.cookWithWhatIHave (engine : SearchRequestBody → Except String EngineResponse)
    (db : List Recipe) (ingredients : List String) (limit : Nat := 20) :
    Except String SearchResult :=
  match engine (cookQuery ingredients limit) with
  | .error e => .error e
  | .ok response =>
      let recipes := fetchRecipesFromDatabase db response.hitIds
      .ok { recipes := recipes
            total := esTotalValue response.total
            maxScore := jsOrUndefQ response.maxScore }

/-- `SearchResolver.searchRecipes`: delegates directly to
`SearchService.searchRecipes` (there is no other routing). -/
def SearchResolver.searchRecipes (engine : SearchRequestBody → Except String EngineResponse)
    (db : List Recipe) (searchQuery : SearchQueryInput) : Except String SearchResult :=
  SearchService.searchRecipes engine db searchQuery

/-! ## FallbackSearchService -/

/-- Prisma `contains` with `mode: 'insensitive'`. -/
def strInsensitiveContains (hay needle : String) : Bool :=
  strIncludes (lowerStr hay) (lowerStr needle)

/-- The Prisma `whereClause` built by `FallbackSearchService.searchRecipes`,
as a predicate on rows (a `lte`/`gte`/`in` filter on a null column excludes
the row). -/
def fallbackWhere (searchQuery : SearchQueryInput) (r : Recipe) : Bool :=
  r.isPublic
  && (if strTruthy searchQuery.query then
        let q := searchQuery.query.getD ""
        strInsensitiveContains r.title q
        || (match r.description with
            | some d => strInsensitiveContains d q
            | none => false)
        || r.ingredients.any fun ing => strInsensitiveContains ing.name q
      else true)
  && (match searchQuery.cuisines with
      | some cs =>
          if cs.length > 0 then
            match r.cuisine with
            | some c => cs.contains c
            | none => false
          else true
      | none => true)
  && (match searchQuery.difficulties with
      | some ds =>
          if ds.length > 0 then
            match r.difficulty with
            | some d => ds.contains d
            | none => false
          else true
      | none => true)
  && (if natTruthy searchQuery.maxCookingTime then
        match r.cookingTime with
        | some t => t ≤ searchQuery.maxCookingTime.getD 0
        | none => false
      else true)
  && (if natTruthy searchQuery.minServings || natTruthy searchQuery.maxServings then
        match r.servings with
        | some s =>
            (if natTruthy searchQuery.minServings then searchQuery.minServings.getD 0 ≤ s else true)
            && (if natTruthy searchQuery.maxServings then s ≤ searchQuery.maxServings.getD 0 else true)
        | none => false
      else true)
  && (if strTruthy searchQuery.authorId then r.authorId == searchQuery.authorId.getD "" else true)

/-- Prisma `orderBy: [{ createdAt: 'desc' }]` (stable insertion sort). -/
def insertByCreatedAtDesc (r : Recipe) : List Recipe → List Recipe
  | [] => [r]
  | x :: xs => if r.createdAt ≤ x.createdAt then x :: insertByCreatedAtDesc r xs
               else r :: x :: xs

/-- Sort a row list by `createdAt` descending. -/
def sortByCreatedAtDesc (rs : List Recipe) : List Recipe :=
  rs.foldr insertByCreatedAtDesc []

/-- `FallbackSearchService.searchRecipes`: count over the where-clause for
`total`, then fetch with ordering, `skip: skip || 0` and
`take: Math.min(take || 20, 50)`, and transform. -/
def FallbackSearchService.searchRecipes (db : List Recipe)
    (searchQuery : SearchQueryInput) : SearchResult :=
  let matching := db.filter (fallbackWhere searchQuery)
  let total := matching.length
  let recipes :=
    ((sortByCreatedAtDesc matching).drop (jsOrNat searchQuery.skip 0)).take
      (Nat.min (jsOrNat searchQuery.take 20) 50)
  { recipes := recipes.map transformRecipe
    total := total
    maxScore := none }

/-- The Prisma where-clause of `FallbackSearchService.cookWithWhatIHave`:
public rows with some ingredient whose name is (case-insensitively) one of
the lower-cased requested names. -/
def cookWhere (ingredients : List String) (r : Recipe) : Bool :=
  r.isPublic
  && r.ingredients.any fun ing =>
       (ingredients.map lowerStr).any fun q => lowerStr ing.name == lowerStr q

/-- `FallbackSearchService.cookWithWhatIHave`: fetch with
`skip: options?.skip || 0`, `take: Math.min(options?.take || 20, 50)` and no
ordering, transform, and report `total` as the length of the transformed
(paginated) list itself. -/
def FallbackSearchService.cookWithWhatIHave (db : List Recipe)
    (ingredients : List String) (skip? take? : Option Nat) : SearchResult :=
  let matching := db.filter (cookWhere ingredients)
  let recipes := (matching.drop (jsOrNat skip? 0)).take (Nat.min (jsOrNat take? 20) 50)
  let transformedRecipes := recipes.map transformRecipe
  { recipes := transformedRecipes
    total := transformedRecipes.length
    maxScore := none }

/-! ## RecipesService mutations (with their index-sync call trace) -/

/-- A call into `ElasticsearchSyncService` observed during a mutation. -/
inductive SyncEvent where
  | syncRecipe (recipeId : String)
  | deleteRecipe (recipeId : String)
deriving DecidableEq, Repr

/-- `CreateRecipeInput` (recipe data plus nested creates). -/
structure CreateRecipeInput where
  title : String
  description : Option String
  cuisine : Option String
  difficulty : Option String
  cookingTime : Option Nat
  servings : Option Nat
  isPublic : Bool
  ingredients : List IngredientRow
  instructions : List InstructionRow
deriving DecidableEq, Repr

/-- `UpdateRecipeInput` (every field optional; present nested lists replace). -/
structure UpdateRecipeInput where
  title : Option String := none
  description : Option String := none
  cuisine : Option String := none
  difficulty : Option String := none
  cookingTime : Option Nat := none
  servings : Option Nat := none
  isPublic : Option Bool := none
  ingredients : Option (List IngredientRow) := none
  instructions : Option (List InstructionRow) := none
deriving DecidableEq, Repr

/-- Errors thrown by `RecipesService`. -/
inductive MutationError where
  | notFound (message : String)
  | forbidden (message : String)
deriving DecidableEq, Repr

/-- `RecipesRepository.create`: insert the new row (fresh id and timestamp
supplied by the store) and return it. -/
def RecipesRepository.create (db : List Recipe) (authorId : String)
    (input : CreateRecipeInput) (newId authorUsername : String) (now : Nat) :
    List Recipe × Recipe :=
  let recipe : Recipe :=
    { id := newId
      title := input.title
      description := input.description
      cuisine := input.cuisine
      difficulty := input.difficulty
      cookingTime := input.cookingTime
      servings := input.servings
      imageUrl := none
      isPublic := input.isPublic
      authorId := authorId
      authorUsername := authorUsername
      ingredients := input.ingredients
      instructions := input.instructions
      ratings := []
      commentsCount := 0
      createdAt := now
      updatedAt := now }
  (db ++ [recipe], recipe)

/-- Application of an `UpdateRecipeInput` to a row
(`prisma.recipe.update` plus the nested delete-and-recreate). -/
def applyUpdate (r : Recipe) (u : UpdateRecipeInput) (now : Nat) : Recipe :=
  { r with
    title := u.title.getD r.title
    description := match u.description with | some d => some d | none => r.description
    cuisine := match u.cuisine with | some c => some c | none => r.cuisine
    difficulty := match u.difficulty with | some d => some d | none => r.difficulty
    cookingTime := match u.cookingTime with | some t => some t | none => r.cookingTime
    servings := match u.servings with | some s => some s | none => r.servings
    isPublic := u.isPublic.getD r.isPublic
    ingredients := match u.ingredients with | some l => l | none => r.ingredients
    instructions := match u.instructions with | some l => l | none => r.instructions
    updatedAt := now }

/-- `RecipesService.create`: repository write, then return the mapped row.
The second component is the trace of `ElasticsearchSyncService` calls made by
the mutation (the source has only the comment
`TODO: Add Elasticsearch sync and notifications back later` here). -/
def RecipesService.create (db : List Recipe) (authorId : String)
    (input : CreateRecipeInput) (newId authorUsername : String) (now : Nat) :
    (List Recipe × Recipe) × List SyncEvent :=
  (RecipesRepository.create db authorId input newId authorUsername now, [])

/-- `RecipesService.update`: not-found and ownership checks, repository
write, no sync call (`TODO: Add Elasticsearch sync back later`). -/
def RecipesService.update (db : List Recipe) (id userId : String)
    (input : UpdateRecipeInput) (now : Nat) :
    Except MutationError (List Recipe × Recipe) × List SyncEvent :=
  match db.find? (fun r => r.id == id) with
  | none => (.error (.notFound "Recipe not found"), [])
  | some existingRecipe =>
      if existingRecipe.authorId != userId then
        (.error (.forbidden "You can only update your own recipes"), [])
      else
        ((.ok ((db.map fun r => if r.id == id then applyUpdate r input now else r),
               applyUpdate existingRecipe input now)), [])

/-- `RecipesService.delete`: not-found and ownership checks, repository
delete, no sync call (`TODO: Add Elasticsearch sync back later`). -/
def RecipesService.delete (db : List Recipe) (id userId : String) :
    Except MutationError (List Recipe × Bool) × List SyncEvent :=
  match db.find? (fun r => r.id == id) with
  | none => (.error (.notFound "Recipe not found"), [])
  | some existingRecipe =>
      if existingRecipe.authorId != userId then
        (.error (.forbidden "You can only delete your own recipes"), [])
      else
        ((.ok ((db.filter fun r => !(r.id == id)), true)), [])

/-! ## ElasticsearchSyncService -/

/-- The document shape `syncRecipe` / `bulkSyncRecipes` project a row into. -/
structure RecipeDocument where
  id : String
  title : String
  description : Option String
  cuisine : Option String
  difficulty : Option String
  cookingTime : Option Nat
  servings : Option Nat
  isPublic : Bool
  authorId : String
  authorUsername : String
  ingredients : List IngredientRow
  instructions : List InstructionRow
  avgRating : Option ℚ
  ratingsCount : Nat
  commentsCount : Nat
  createdAt : Nat
  updatedAt : Nat
deriving DecidableEq, Repr

/-- The projection of a row into its index document (identical field-by-field
copy plus the computed `avgRating`). -/
def projectRecipe (recipe : Recipe) : RecipeDocument :=
  { id := recipe.id
    title := recipe.title
    description := recipe.description
    cuisine := recipe.cuisine
    difficulty := recipe.difficulty
    cookingTime := recipe.cookingTime
    servings := recipe.servings
    isPublic := recipe.isPublic
    authorId := recipe.authorId
    authorUsername := recipe.authorUsername
    ingredients := recipe.ingredients
    instructions := recipe.instructions
    avgRating :=
      if recipe.ratings.length > 0 then
        some ((recipe.ratings.map fun v => (v : ℚ)).sum / (recipe.ratings.length : ℚ))
      else none
    ratingsCount := recipe.ratings.length
    commentsCount := recipe.commentsCount
    createdAt := recipe.createdAt
    updatedAt := recipe.updatedAt }

/-- The recipes index, modelled as a document store keyed by id. -/
abbrev EsIndex := List (String × RecipeDocument)

/-- `elasticsearchService.indexDocument`: upsert of the document under its id. -/
def indexDocument (index : EsIndex) (id : String) (document : RecipeDocument) : EsIndex :=
  (List.filter (fun e => !(e.1 == id)) index) ++ [(id, document)]

/-- `elasticsearchService.deleteDocument`: idempotent removal by id
(a 404 from the engine is swallowed by `deleteRecipe`). -/
def deleteDocument (index : EsIndex) (id : String) : EsIndex :=
  List.filter (fun e => !(e.1 == id)) index

/-- Does the index hold a document under this id? -/
def hasDoc (index : EsIndex) (id : String) : Bool :=
  List.any index fun e => e.1 == id

/-- `ElasticsearchSyncService.syncRecipe`: look the row up; a missing row is
only logged; a non-public row is deleted from the index; a public row is
projected and upserted. -/
def ElasticsearchSyncService.syncRecipe (db : List Recipe) (index : EsIndex)
    (recipeId : String) : EsIndex :=
  match db.find? (fun r => r.id == recipeId) with
  | none => index
  | some recipe =>
      if !recipe.isPublic then deleteDocument index recipeId
      else indexDocument index recipe.id (projectRecipe recipe)

/-- The `documents` array `bulkSyncRecipes` builds: only rows fetched by
`findMany({ where: { isPublic: true } })` are projected. -/
def bulkDocuments (db : List Recipe) : List (String × RecipeDocument) :=
  (db.filter fun r => r.isPublic).map fun recipe => (recipe.id, projectRecipe recipe)

/-- `ElasticsearchSyncService.bulkSyncRecipes` (restricted to the recipes
index): bulk-upsert the projected public rows when the array is non-empty. -/
def ElasticsearchSyncService.bulkSyncRecipes (db : List Recipe) (index : EsIndex) : EsIndex :=
  let documents := bulkDocuments db
  if documents.length > 0 then
    documents.foldl (fun idx d => indexDocument idx d.1 d.2) index
  else index

/-- `ElasticsearchSyncService.categorizeIngredient`: lower-case the name and
walk the keyword chains in source order. -/
def categorizeIngredient (ingredientName : String) : String :=
  let name := lowerStr ingredientName
  if strIncludes name "chicken" || strIncludes name "beef" || strIncludes name "pork" ||
     strIncludes name "fish" || strIncludes name "salmon" || strIncludes name "meat" then
    "protein"
  else if strIncludes name "onion" || strIncludes name "garlic" || strIncludes name "tomato" ||
     strIncludes name "carrot" || strIncludes name "pepper" || strIncludes name "lettuce" then
    "vegetable"
  else if strIncludes name "apple" || strIncludes name "banana" || strIncludes name "orange" ||
     strIncludes name "berry" || strIncludes name "lemon" || strIncludes name "lime" then
    "fruit"
  else if strIncludes name "flour" || strIncludes name "rice" || strIncludes name "pasta" ||
     strIncludes name "bread" || strIncludes name "oats" || strIncludes name "quinoa" then
    "grain"
  else if strIncludes name "milk" || strIncludes name "cheese" || strIncludes name "butter" ||
     strIncludes name "cream" || strIncludes name "yogurt" then
    "dairy"
  else if strIncludes name "salt" || strIncludes name "pepper" || strIncludes name "basil" ||
     strIncludes name "oregano" || strIncludes name "thyme" || strIncludes name "spice" then
    "seasoning"
  else "other"

/-- The fixed taxonomy as an ordered rule table, in the spec's taxonomy order,
with the keyword sets of the source. -/
def categoryTaxonomy : List (String × List String) :=
  [ ("protein", ["chicken", "beef", "pork", "fish", "salmon", "meat"]),
    ("vegetable", ["onion", "garlic", "tomato", "carrot", "pepper", "lettuce"]),
    ("fruit", ["apple", "banana", "orange", "berry", "lemon", "lime"]),
    ("grain", ["flour", "rice", "pasta", "bread", "oats", "quinoa"]),
    ("dairy", ["milk", "cheese", "butter", "cream", "yogurt"]),
    ("seasoning", ["salt", "pepper", "basil", "oregano", "thyme", "spice"]) ]

/-- First rule whose keyword set has a containment match wins; `other` when
no rule matches (the spec's reading of the categorizer). -/
def firstMatchCategory (name : String) : List (String × List String) → String
  | [] => "other"
  | (category, keywords) :: rest =>
      if keywords.any (fun k => strIncludes name k) then category
      else firstMatchCategory name rest

/-- Categorisation as the spec words it: case-insensitive keyword containment,
first match in taxonomy order. -/
def categorizeByTaxonomy (ingredientName : String) : String :=
  firstMatchCategory (lowerStr ingredientName) categoryTaxonomy

/-! ## Concrete rows used to evaluate the theorems on explicit inputs -/

/-- A minimal public row used as a template for concrete instances. -/
def baseRecipe : Recipe :=
  { id := "r"
    title := "t"
    description := none
    cuisine := none
    difficulty := none
    cookingTime := none
    servings := none
    imageUrl := none
    isPublic := true
    authorId := "u"
    authorUsername := "u"
    ingredients := []
    instructions := []
    ratings := []
    commentsCount := 0
    createdAt := 0
    updatedAt := 0 }

/-- The i-th of a family of distinct public rows. -/
def mkPublicRecipe (i : Nat) : Recipe :=
  { baseRecipe with id := toString i, createdAt := i, updatedAt := i }

/-- A store with 51 public rows (enough to hit the fallback page cap). -/
def capDb : List Recipe := (List.range 51).map mkPublicRecipe

/-- A request asking for a page of 51 rows (within the DTO cap of 100). -/
def capSq : SearchQueryInput := { take := some 51 }

/-- Store used to exercise reconciliation: rows `a` and `c` exist and are
public, row `b` does not exist. -/
def reconDb : List Recipe :=
  [ { baseRecipe with id := "a", createdAt := 1, updatedAt := 1 },
    { baseRecipe with id := "c", createdAt := 2, updatedAt := 2 } ]

/-- Engine response ranking `[c, a, b]` with a reported total of 3. -/
def reconResp : EngineResponse := { hitIds := ["c", "a", "b"], total := .num 3, maxScore := none }

/-- An engine that returns `reconResp` for any request. -/
def reconEngine : SearchRequestBody → Except String EngineResponse := fun _ => .ok reconResp

/-- The empty search request (all DTO fields absent). -/
def emptySq : SearchQueryInput := {}

/-- An engine whose every call fails (unreachable engine). -/
def engineDown : SearchRequestBody → Except String EngineResponse :=
  fun _ => .error "Search failed"

/-- A store holding one public and one non-public row. -/
def visDb : List Recipe :=
  [ { baseRecipe with id := "pub", isPublic := true },
    { baseRecipe with id := "priv", isPublic := false } ]

/-- An index state holding a stale document for the non-public row. -/
def staleIndex : EsIndex :=
  [("priv", projectRecipe { baseRecipe with id := "priv", isPublic := false })]

/-- A request with exactly two requested ingredients. -/
def twoIngredientsSq : SearchQueryInput := { ingredients := some ["egg", "flour"] }

/-! ## Theorems -/

/-- C5: For every SearchRequest (including the cook-with-what-I-have shape),
the engine query built by the Query Builder contains a mandatory clause
filtering visibility == public, regardless of which optional fields of the
request are present. -/
theorem every_query_filters_isPublic (searchQuery : SearchQueryInput)
    (ingredients : List String) (limit : Nat) :
    Clause.term "isPublic" true ∈ (buildSearchQuery searchQuery).query.must
    ∧ Clause.term "isPublic" true ∈ (cookQuery ingredients limit).query.must := by
  constructor
  · simp [buildSearchQuery]
  · simp [cookQuery]

/-- C7: Every primary-path search query (both the built query and the
cook-with-what-I-have query, as well as the request body sent to the engine)
specifies exactly the sort order: score desc, then avgRating desc with
missing last, then ratingsCount desc, then createdAt desc. -/
theorem primary_sort_order (searchQuery : SearchQueryInput)
    (ingredients : List String) (limit : Nat) :
    (buildSearchQuery searchQuery).sort =
      [ { field := "_score", order := "desc", missing := none },
        { field := "avgRating", order := "desc", missing := some "_last" },
        { field := "ratingsCount", order := "desc", missing := none },
        { field := "createdAt", order := "desc", missing := none } ]
    ∧ (cookQuery ingredients limit).sort =
      [ { field := "_score", order := "desc", missing := none },
        { field := "avgRating", order := "desc", missing := some "_last" },
        { field := "ratingsCount", order := "desc", missing := none },
        { field := "createdAt", order := "desc", missing := none } ]
    ∧ (searchRequestBody searchQuery).sort = (buildSearchQuery searchQuery).sort :=
  ⟨rfl, rfl, rfl⟩

/-- C2 (evidence): no recipe mutation emits any call into the index-sync
service — the trace of `ElasticsearchSyncService` calls of `create`, `update`
and `delete` is empty for every store and every input. -/
theorem recipe_mutations_emit_no_sync_calls (db : List Recipe)
    (authorId : String) (input : CreateRecipeInput) (newId authorUsername : String)
    (now : Nat) (id userId : String) (uinput : UpdateRecipeInput) :
    (RecipesService.create db authorId input newId authorUsername now).2 = []
    ∧ (RecipesService.update db id userId uinput now).2 = []
    ∧ (RecipesService.delete db id userId).2 = [] := by
  refine ⟨rfl, ?_, ?_⟩
  · unfold RecipesService.update
    split
    · rfl
    · split <;> rfl
  · unfold RecipesService.delete
    split
    · rfl
    · split <;> rfl

/-- C10: the fallback cook-with-what-I-have reports a `total` equal to the
length of the returned paginated page itself, hence never above the page
size cap `min(take || 20, 50)`; by contrast the fallback `searchRecipes`
reports the full match count of its where-clause. -/
theorem fallback_cook_total_is_page_length (db : List Recipe)
    (ingredients : List String) (skip? take? : Option Nat)
    (searchQuery : SearchQueryInput) :
    (FallbackSearchService.cookWithWhatIHave db ingredients skip? take?).total
      = (FallbackSearchService.cookWithWhatIHave db ingredients skip? take?).recipes.length
    ∧ (FallbackSearchService.cookWithWhatIHave db ingredients skip? take?).total
      ≤ Nat.min (jsOrNat take? 20) 50
    ∧ (FallbackSearchService.searchRecipes db searchQuery).total
      = (db.filter (fallbackWhere searchQuery)).length := by
  refine ⟨rfl, ?_, rfl⟩
  simp only [FallbackSearchService.cookWithWhatIHave, List.length_map, List.length_take]
  exact Nat.min_le_left _ _

/-- C8 (amended): the fallback search path caps the returned page at
`min(take || 20, 50)` — in particular at most 50 records for any request,
even when the DTO allows `take` up to 100. -/
theorem fallback_take_capped_at_50 (db : List Recipe)
    (searchQuery : SearchQueryInput) :
    (FallbackSearchService.searchRecipes db searchQuery).recipes.length
      ≤ Nat.min (jsOrNat searchQuery.take 20) 50 := by
  simp only [FallbackSearchService.searchRecipes, List.length_map, List.length_take]
  exact Nat.min_le_left _ _

/-- C8 (counterexample): with 51 matching public rows and `take = 51` (a
value the DTO admits and the primary path passes through), the fallback
returns only 50 records, so it does not apply the primary path's cap of
100: the page is strictly shorter than `min(take, total)`. -/
theorem fallback_take_cap_counterexample :
    (FallbackSearchService.searchRecipes capDb capSq).total = 51
    ∧ (FallbackSearchService.searchRecipes capDb capSq).recipes.length = 50
    ∧ (FallbackSearchService.searchRecipes capDb capSq).recipes.length
        ≠ Nat.min (jsOrNat capSq.take 20) ((FallbackSearchService.searchRecipes capDb capSq).total) := by
  refine ⟨by decide, by decide, by decide⟩

/-- C3 (evidence): the search resolver routes every request straight to the
primary `SearchService`; when the engine call fails the error propagates to
the caller unchanged, even though the fallback service (never invoked on
this path) succeeds on the same store and request. -/
theorem search_error_propagates_without_fallback :
    SearchResolver.searchRecipes engineDown (List.map mkPublicRecipe [0]) emptySq
      = .error "Search failed"
    ∧ (FallbackSearchService.searchRecipes (List.map mkPublicRecipe [0]) emptySq).total = 1
    ∧ (FallbackSearchService.searchRecipes (List.map mkPublicRecipe [0]) emptySq).recipes.length = 1 := by
  refine ⟨rfl, by decide, by decide⟩

/-- Removing the entries keyed `id` leaves exactly the documents under other
keys. -/
theorem hasDoc_filterNe (index : EsIndex) (id k : String) :
    hasDoc (List.filter (fun e => !(e.1 == id)) index) k
      = (!(k == id) && hasDoc index k) := by
  induction index with
  | nil => simp [hasDoc]
  | cons e t ih =>
    simp only [hasDoc, List.filter_cons, List.any_cons] at ih ⊢
    cases he1 : (e.1 == id) <;> cases hek : (e.1 == k) <;> cases hki : (k == id) <;>
      simp_all [beq_iff_eq, beq_eq_false_iff_ne]

/-- An upsert makes the id present and leaves other keys' presence unchanged. -/
theorem hasDoc_indexDocument (index : EsIndex) (id k : String) (d : RecipeDocument) :
    hasDoc (indexDocument index id d) k = (k == id || hasDoc index k) := by
  unfold indexDocument
  rw [show hasDoc (List.filter (fun e => !(e.1 == id)) index ++ [(id, d)]) k
        = (hasDoc (List.filter (fun e => !(e.1 == id)) index) k || hasDoc [(id, d)] k)
      from List.any_append]
  rw [hasDoc_filterNe]
  simp only [hasDoc, List.any_cons, List.any_nil]
  cases hki : (k == id) <;> cases hl : hasDoc index k <;>
    simp_all [hasDoc, beq_iff_eq, beq_eq_false_iff_ne, Ne.symm]

/-- A delete removes the id. -/
theorem hasDoc_deleteDocument_self (index : EsIndex) (id : String) :
    hasDoc (deleteDocument index id) id = false := by
  unfold deleteDocument
  rw [hasDoc_filterNe]
  simp

/-- Bulk upserting more documents never removes a present id. -/
theorem hasDoc_foldl_mono (docs : List (String × RecipeDocument)) (index : EsIndex)
    (k : String) (h : hasDoc index k = true) :
    hasDoc (docs.foldl (fun idx d => indexDocument idx d.1 d.2) index) k = true := by
  induction docs generalizing index with
  | nil => exact h
  | cons p t ih =>
    exact ih _ (by rw [hasDoc_indexDocument]; simp [h])

/-- Every id occurring in the bulk array is present after the bulk upsert. -/
theorem hasDoc_bulk_mem (docs : List (String × RecipeDocument)) (index : EsIndex)
    (k : String) (d : RecipeDocument) (hmem : (k, d) ∈ docs) :
    hasDoc (docs.foldl (fun idx d => indexDocument idx d.1 d.2) index) k = true := by
  induction docs generalizing index with
  | nil => cases hmem
  | cons p t ih =>
    rcases List.mem_cons.mp hmem with heq | hmem'
    · refine hasDoc_foldl_mono t _ k ?_
      rw [← heq, hasDoc_indexDocument]
      simp
    · exact ih _ hmem'

/-- C4: after `syncRecipe` the document for the synced id exists in the index
iff the system-of-record row is public (a non-public row is deleted, not
upserted); the bulk sync projects exactly the rows fetched with the public
flag set — every public row's id is present after a bulk sync, and every
projected document carries the public flag. -/
theorem sync_public_iff_doc (db : List Recipe) (index : EsIndex) (id : String)
    (recipe : Recipe) (hfind : db.find? (fun r => r.id == id) = some recipe) :
    hasDoc (ElasticsearchSyncService.syncRecipe db index id) id = recipe.isPublic
    ∧ bulkDocuments db = (db.filter fun r => r.isPublic).map (fun r => (r.id, projectRecipe r))
    ∧ (∀ r ∈ db, r.isPublic = true →
        hasDoc (ElasticsearchSyncService.bulkSyncRecipes db index) r.id = true)
    ∧ (∀ e ∈ bulkDocuments db, e.2.isPublic = true) := by
  have hid : recipe.id = id := by
    have h := List.find?_some hfind
    simp only [beq_iff_eq] at h
    exact h
  refine ⟨?_, rfl, ?_, ?_⟩
  · unfold ElasticsearchSyncService.syncRecipe
    rw [hfind]
    cases hpub : recipe.isPublic with
    | false => simp [hpub, hasDoc_deleteDocument_self]
    | true => simp [hpub, hid, hasDoc_indexDocument]
  · intro r hr hpub
    unfold ElasticsearchSyncService.bulkSyncRecipes
    have hmem : (r.id, projectRecipe r) ∈ bulkDocuments db := by
      unfold bulkDocuments
      exact List.mem_map_of_mem _ (List.mem_filter.mpr ⟨hr, hpub⟩)
    have hlen : 0 < (bulkDocuments db).length := by
      rcases hbd : bulkDocuments db with _ | _
      · rw [hbd] at hmem; cases hmem
      · simp
    simp only [gt_iff_lt, hlen, if_pos]
    exact hasDoc_bulk_mem _ _ _ _ hmem
  · intro e he
    unfold bulkDocuments at he
    rcases List.mem_map.mp he with ⟨r, hr, rfl⟩
    exact (List.mem_filter.mp hr).2

/-- Witness for C4 at a concrete store: the non-public row's stale document
is removed by its sync, and the public row's sync leaves its document
present. -/
theorem sync_public_iff_doc_witness :
    hasDoc staleIndex "priv" = true
    ∧ hasDoc (ElasticsearchSyncService.syncRecipe visDb staleIndex "priv") "priv" = false
    ∧ hasDoc (ElasticsearchSyncService.syncRecipe visDb staleIndex "pub") "pub" = true :=
  ⟨by decide,
   (sync_public_iff_doc visDb staleIndex "priv"
      { baseRecipe with id := "priv", isPublic := false } (by decide)).1,
   (sync_public_iff_doc visDb staleIndex "pub"
      { baseRecipe with id := "pub", isPublic := true } (by decide)).1⟩

/-- C6: in the standard search query every requested ingredient contributes a
mandatory (`must`) nested fuzzy-match clause (so requested ingredients are
ANDed), while in the cook-with-what-I-have query the ingredient list becomes
`should` clauses — one sum-scored nested clause per ingredient — with
`minimum_should_match = 1`. -/
theorem ingredient_clause_semantics (searchQuery : SearchQueryInput)
    (ings : List String) (limit : Nat)
    (hi : searchQuery.ingredients = some ings) (hne : ings ≠ []) :
    (∀ ingredient ∈ ings,
       Clause.nestedMatch "ingredients" "ingredients.name" ingredient "AUTO"
         ∈ (buildSearchQuery searchQuery).query.must)
    ∧ (cookQuery ings limit).query.should
        = some (ings.map fun ingredient =>
            Clause.nestedShould "ingredients"
              [ { field := "ingredients.name", query := ingredient, boost := 2 },
                { field := "ingredients.name.keyword", query := ingredient, boost := 3 } ]
              "sum")
    ∧ (cookQuery ings limit).query.minimum_should_match = some 1 := by
  refine ⟨?_, rfl, rfl⟩
  intro ingredient hmem
  have hlen : ings.length > 0 := List.length_pos.mpr hne
  simp only [buildSearchQuery, ingredientMustClauses, hi, hlen, if_pos, List.mem_cons]
  right
  exact List.mem_map_of_mem _ hmem

/-- Witness for C6 at the two-ingredient request of the spec's example. -/
theorem ingredient_clause_semantics_witness :
    twoIngredientsSq.ingredients = some ["egg", "flour"]
    ∧ (["egg", "flour"] : List String) ≠ []
    ∧ Clause.nestedMatch "ingredients" "ingredients.name" "egg" "AUTO"
        ∈ (buildSearchQuery twoIngredientsSq).query.must
    ∧ Clause.nestedMatch "ingredients" "ingredients.name" "flour" "AUTO"
        ∈ (buildSearchQuery twoIngredientsSq).query.must
    ∧ (cookQuery ["egg", "flour"] 20).query.minimum_should_match = some 1 :=
  ⟨rfl, by decide,
   (ingredient_clause_semantics twoIngredientsSq ["egg", "flour"] 20 rfl (by decide)).1
     "egg" (by simp),
   (ingredient_clause_semantics twoIngredientsSq ["egg", "flour"] 20 rfl (by decide)).1
     "flour" (by simp),
   (ingredient_clause_semantics twoIngredientsSq ["egg", "flour"] 20 rfl (by decide)).2.2⟩

/-- No rule of a table matching nowhere yields anything but `other`. -/
theorem firstMatchCategory_no_match (name : String) :
    ∀ table : List (String × List String),
      (table.all fun c => c.2.all fun k => !(strIncludes name k)) = true →
      firstMatchCategory name table = "other" := by
  intro table
  induction table with
  | nil => intro _; rfl
  | cons c rest ih =>
    intro h
    rw [List.all_cons, Bool.and_eq_true] at h
    unfold firstMatchCategory
    have hany : (c.2.any fun k => strIncludes name k) = false := by
      rcases h with ⟨h1, _⟩
      rw [List.all_eq_true] at h1
      rw [List.any_eq_false]
      intro k hk
      have := h1 k hk
      simp_all
    rcases c with ⟨category, keywords⟩
    simp only at hany
    rw [hany]
    simp only [Bool.false_eq_true, if_false]
    exact ih h.2

/-- C9: the categorizer agrees everywhere with first-match-wins over the
ordered taxonomy table (protein, vegetable, fruit, grain, dairy, seasoning)
under case-insensitive keyword containment; a name matching two categories'
keywords (such as one containing `pepper`, a vegetable and a seasoning
keyword) receives the earlier category; a name matching no keyword is
categorized `other`. -/
theorem categorize_first_match_taxonomy :
    (∀ name, categorizeIngredient name = categorizeByTaxonomy name)
    ∧ categorizeIngredient "Red Pepper" = "vegetable"
    ∧ (∀ name,
        (categoryTaxonomy.all fun c => c.2.all fun k => !(strIncludes (lowerStr name) k)) = true →
        categorizeIngredient name = "other") := by
  have heq : ∀ name, categorizeIngredient name = categorizeByTaxonomy name := by
    intro name
    simp only [categorizeIngredient, categorizeByTaxonomy, categoryTaxonomy, firstMatchCategory,
      List.any_cons, List.any_nil, Bool.or_false, Bool.or_assoc]
  refine ⟨heq, by decide, ?_⟩
  intro name h
  rw [heq name]
  exact firstMatchCategory_no_match (lowerStr name) categoryTaxonomy h

/-- Witness for C9: `tofu` matches no taxonomy keyword and is categorized
`other`. -/
theorem categorize_first_match_taxonomy_witness :
    (categoryTaxonomy.all fun c => c.2.all fun k => !(strIncludes (lowerStr "tofu") k)) = true
    ∧ categorizeIngredient "tofu" = "other" :=
  ⟨by decide, categorize_first_match_taxonomy.2.2 "tofu" (by decide)⟩

/-- `find?` only depends on the pointwise values of its predicate. -/
theorem find?_congrBool {α : Type} (p q : α → Bool) (l : List α)
    (h : ∀ x ∈ l, p x = q x) : l.find? p = l.find? q := by
  induction l with
  | nil => rfl
  | cons a t ih =>
    have ha : p a = q a := h a (by simp)
    cases hpa : p a
    · rw [List.find?_cons_of_neg _ (by simp [hpa]),
        List.find?_cons_of_neg _ (by simp [← ha, hpa])]
      exact ih fun x hx => h x (by simp [hx])
    · rw [List.find?_cons_of_pos _ hpa, List.find?_cons_of_pos _ (ha ▸ hpa)]

/-- On a store with no duplicate ids, looking an id up in the JS map built
from the filtered fetch is the same as `find?` over the store with the
filter conjoined. -/
theorem recipeMapGet_filter_eq_find? (db : List Recipe) (p : Recipe → Bool) (id : String)
    (hnd : (db.map Recipe.id).Nodup) :
    recipeMapGet (db.filter p) id = db.find? (fun r => r.id == id && p r) := by
  induction db with
  | nil => rfl
  | cons r rest ih =>
    rw [List.map_cons, List.nodup_cons] at hnd
    obtain ⟨hnotin, hnd'⟩ := hnd
    unfold recipeMapGet at ih ⊢
    rw [List.filter_cons]
    cases hpr : p r
    · simp only [Bool.false_eq_true, if_false]
      rw [ih hnd', List.find?_cons_of_neg _ (by simp [hpr])]
    · simp only [if_true]
      cases hrid : (r.id == id)
      · rw [List.filter_cons, if_neg (by simp [hrid]), ih hnd',
          List.find?_cons_of_neg _ (by simp [hrid])]
      · have hid : r.id = id := by simpa using hrid
        rw [List.find?_cons_of_pos _ (by simp [hrid, hpr])]
        rw [List.filter_cons, if_pos (by simp [hrid])]
        have htail : List.filter (fun recipe => recipe.id == id) (List.filter p rest) = [] := by
          rw [List.filter_eq_nil_iff]
          intro x hx hbeq
          have hxid : x.id = id := by simpa using hbeq
          exact hnotin (List.mem_map.mpr ⟨x, List.mem_of_mem_filter hx, hxid.trans hid.symm⟩)
        rw [htail]
        rfl

/-- `filterMap` only depends on the pointwise values of its function. -/
theorem filterMap_congr_mem {α β : Type} (l : List α) (f g : α → Option β)
    (h : ∀ a ∈ l, f a = g a) : l.filterMap f = l.filterMap g := by
  induction l with
  | nil => rfl
  | cons a t ih =>
    rw [List.filterMap_cons, List.filterMap_cons, h a (by simp),
      ih fun x hx => h x (by simp [hx])]

/-- `filterMap` of a guard is `filter`. -/
theorem filterMap_if_eq_filter {α : Type} (l : List α) (p : α → Bool) :
    (l.filterMap fun a => if p a then some a else none) = l.filter p := by
  induction l with
  | nil => rfl
  | cons a t ih =>
    rw [List.filterMap_cons, List.filter_cons]
    cases hpa : p a <;> simp [hpa, ih]

/-- The id of a public-row lookup is the looked-up id when it resolves, and
the lookup resolves exactly when some public row carries the id. -/
theorem find?_map_id_eq_guard (db : List Recipe) (id : String) :
    ((db.find? fun r => r.id == id && r.isPublic).map Recipe.id)
      = if db.any (fun r => r.id == id && r.isPublic) then some id else none := by
  cases hf : db.find? (fun r => r.id == id && r.isPublic) with
  | none =>
    have hnone := List.find?_eq_none.mp hf
    have hany : (db.any fun r => r.id == id && r.isPublic) = false := by
      rw [List.any_eq_false]
      intro x hx
      exact hnone x hx
    simp [hany]
  | some r =>
    have hp := List.find?_some hf
    have hmem := List.mem_of_find?_eq_some hf
    rw [Bool.and_eq_true] at hp
    have hid : r.id = id := by simpa using hp.1
    have hany : (db.any fun r => r.id == id && r.isPublic) = true := by
      rw [List.any_eq_true]
      exact ⟨r, hmem, by simp [hp.1, hp.2]⟩
    simp [hany, hid]

/-- Reconciliation characterisation: on a store with no duplicate ids, the
fetch returns exactly the transformed public rows of the ranked id list, in
ranked order, unresolved ids dropped. -/
theorem fetchRecipes_spec (db : List Recipe) (recipeIds : List String)
    (hnd : (db.map Recipe.id).Nodup) :
    fetchRecipesFromDatabase db recipeIds
      = (recipeIds.filterMap fun id => db.find? fun r => r.id == id && r.isPublic).map
          transformRecipe := by
  cases hids : recipeIds with
  | nil => rfl
  | cons i l =>
    unfold fetchRecipesFromDatabase
    rw [if_neg (by simp)]
    dsimp only
    congr 1
    refine filterMap_congr_mem _ _ _ ?_
    intro id hid
    rw [recipeMapGet_filter_eq_find? db _ id hnd]
    refine find?_congrBool _ _ db ?_
    intro r _
    cases hr : (r.id == id)
    · simp
    · have hrid : r.id = id := by simpa using hr
      have hcont : (i :: l).contains r.id = true := by
        rw [hrid]
        simpa using hid
      simp only [hcont, Bool.true_and]

/-- The returned ids of a fetch are the ranked ids filtered to those still
resolving to a public row. -/
theorem fetchRecipes_ids (db : List Recipe) (recipeIds : List String)
    (hnd : (db.map Recipe.id).Nodup) :
    (fetchRecipesFromDatabase db recipeIds).map RecipeResult.id
      = recipeIds.filter fun id => db.any fun r => r.id == id && r.isPublic := by
  rw [fetchRecipes_spec db recipeIds hnd, List.map_map, List.map_filterMap,
    ← filterMap_if_eq_filter recipeIds fun id => db.any fun r => r.id == id && r.isPublic]
  refine filterMap_congr_mem _ _ _ ?_
  intro id _
  have hcomp : (RecipeResult.id ∘ transformRecipe) = Recipe.id := funext fun r => rfl
  rw [hcomp]
  exact find?_map_id_eq_guard db id

/-- C1: for every successful engine response, `searchRecipes` returns (with
no error) the transformed authoritative rows re-ordered to exactly the
engine's ranked id order, silently dropping every id that no longer resolves
to a public row, and reports the engine's total unadjusted. -/
theorem searchRecipes_reconciliation (engine : SearchRequestBody → Except String EngineResponse)
    (db : List Recipe) (searchQuery : SearchQueryInput) (resp : EngineResponse)
    (hnd : (db.map Recipe.id).Nodup)
    (heng : engine (searchRequestBody searchQuery) = .ok resp) :
    SearchService.searchRecipes engine db searchQuery
      = .ok { recipes := (resp.hitIds.filterMap fun id =>
                            db.find? fun r => r.id == id && r.isPublic).map transformRecipe
              total := esTotalValue resp.total
              maxScore := jsOrUndefQ resp.maxScore }
    ∧ ((resp.hitIds.filterMap fun id =>
          db.find? fun r => r.id == id && r.isPublic).map transformRecipe).map RecipeResult.id
        = resp.hitIds.filter fun id => db.any fun r => r.id == id && r.isPublic := by
  constructor
  · unfold SearchService.searchRecipes
    rw [heng]
    dsimp only
    rw [fetchRecipes_spec db resp.hitIds hnd]
  · rw [← fetchRecipes_spec db resp.hitIds hnd]
    exact fetchRecipes_ids db resp.hitIds hnd

/-- Witness for C1: engine order `[c, a, b]` with `b` gone from the store
yields the sequence `[c, a]` while the reported total stays 3. -/
theorem searchRecipes_reconciliation_witness :
    (reconDb.map Recipe.id).Nodup
    ∧ (SearchService.searchRecipes reconEngine reconDb emptySq
        = .ok { recipes := (reconResp.hitIds.filterMap fun id =>
                              reconDb.find? fun r => r.id == id && r.isPublic).map transformRecipe
                total := esTotalValue reconResp.total
                maxScore := jsOrUndefQ reconResp.maxScore }
       ∧ ((reconResp.hitIds.filterMap fun id =>
             reconDb.find? fun r => r.id == id && r.isPublic).map transformRecipe).map RecipeResult.id
           = reconResp.hitIds.filter fun id => reconDb.any fun r => r.id == id && r.isPublic)
    ∧ (reconResp.hitIds.filter fun id => reconDb.any fun r => r.id == id && r.isPublic) = ["c", "a"]
    ∧ esTotalValue reconResp.total = 3 :=
  ⟨by decide,
   searchRecipes_reconciliation reconEngine reconDb emptySq reconResp (by decide) rfl,
   by decide, by decide⟩
